import Mathlib

/-!
Verification development for the chart rendering engine (pyqtchart).

The definitions below are a shallow embedding of the Python sources:
  * `BarChart.py`   — `scale_from_mid`, `plot_area`, `_coordinate_transform`,
                      `_prepare_drawing_cache`, `_prepare_painting`,
                      `_paint_drawers`, `add_drawer`
  * `Drawer.py`     — `CandleDrawer`: `get_rect`, `_generate_cache`,
                      `clear_cache`, `on_data_source_data_removed`, the
                      cache-extension step of `draw`
  * `private/ValueAxisHelper.py` — `_generate_sequence`,
                      `ValueAxisHelper.prepare_draw`
Real-valued quantities are modelled over `ℚ`; Qt's `QTransform` values that
arise in this code are all axis-aligned affine maps, modelled by `Affine`.
-/

/-- Models `QRectF(left, top, width, height)` with rational coordinates. -/
structure Rect where
  left : ℚ
  top : ℚ
  width : ℚ
  height : ℚ
  deriving DecidableEq

/-- Models `QRectF.right()` (the `qreal` overload): `left + width`. -/
def Rect.right (r : Rect) : ℚ := r.left + r.width

/-- Models `QRectF.bottom()`: `top + height`. -/
def Rect.bottom (r : Rect) : ℚ := r.top + r.height

/-- Models the axis-aligned affine `QTransform`s produced by this code:
the map `p ↦ (m11 * p.x + dx, m22 * p.y + dy)` (no shear, no projection;
the only rotation used is the exact 180-degree X-axis flip, which Qt
special-cases to the diagonal matrix `diag(1, -1)`). -/
structure Affine where
  m11 : ℚ
  m22 : ℚ
  dx : ℚ
  dy : ℚ
  deriving DecidableEq

namespace Affine

/-- `QTransform.map(QPointF)`. -/
def map (t : Affine) (p : ℚ × ℚ) : ℚ × ℚ := (t.m11 * p.1 + t.dx, t.m22 * p.2 + t.dy)

/-- Qt's matrix product `a * b` (row-vector convention): apply `a` first,
then `b`.  `t *= s` in the Python source is `t := t.comp s`. -/
def comp (a b : Affine) : Affine :=
  ⟨a.m11 * b.m11, a.m22 * b.m22, a.dx * b.m11 + b.dx, a.dy * b.m22 + b.dy⟩

/-- `QTransform.fromTranslate(dx, dy)`. -/
def fromTranslate (dx dy : ℚ) : Affine := ⟨1, 1, dx, dy⟩

/-- `QTransform.fromScale(sx, sy)`. -/
def fromScale (sx sy : ℚ) : Affine := ⟨sx, sy, 0, 0⟩

/-- `QTransform.inverted()[0]`: the exact matrix inverse when the
determinant (here `m11 * m22`) is nonzero, and the identity otherwise
(Qt returns the identity transform together with `ok = False`). -/
def inverted (t : Affine) : Affine :=
  if t.m11 * t.m22 ≠ 0 then ⟨1 / t.m11, 1 / t.m22, -(t.dx / t.m11), -(t.dy / t.m22)⟩
  else ⟨1, 1, 0, 0⟩

end Affine

/-- Models `QTransform.fromTranslate(0, h).rotate(180, Qt.XAxis)`.
Qt's in-place `rotate` pre-multiplies: the rotation (`y ↦ -y`, since Qt
special-cases 180 degrees to `cos = -1, sin = 0`) applies first, then the
translation by `(0, h)`. -/
def flip180X (h : ℚ) : Affine :=
  (Affine.fromScale 1 (-1)).comp (Affine.fromTranslate 0 h)

/-! ## BarChart.py -/

/-- `BarChart.scale_from_mid(low, high, ratio)`. -/
def scale_from_mid (low high ratio : ℚ) : ℚ × ℚ :=
  let mid := (low + high) / 2
  let scaled_range_2 := (high - low) / 2 * ratio
  (mid - scaled_range_2, mid + scaled_range_2)

/-- `BarChartWidget.plot_area(config)`: the widget rect `(0, 0, W, H)`
adjusted by the four paddings (`adjusted(pl, pt, -pr, -pb)`). -/
def plot_area (W H pl pt pr pb : ℚ) : Rect :=
  ⟨pl, pt, (W - pr) - pl, (H - pb) - pt⟩

/-- `BarChartWidget._coordinate_transform(input, output)`: translate the
input origin to zero, scale by `output.width / input.width` and
`output.height / input.height`, then translate to the output origin. -/
def _coordinate_transform (input output : Rect) : Affine :=
  let rx := output.width / input.width
  let ry := output.height / input.height
  ((Affine.fromTranslate (-input.left) (-input.top)).comp
      (Affine.fromScale rx ry)).comp
    (Affine.fromTranslate output.left output.top)

/-- The per-frame `DrawingCache` from `Base.py` (the fields this
development uses). -/
structure DrawingCache where
  drawer_transform : Affine
  ui_transform : Affine
  drawer_area : Rect
  plot_area : Rect
  deriving DecidableEq

/-- `BarChartWidget._prepare_drawing_cache(config)` for a widget of size
`(W, H)` with paddings `(pl, pt, pr, pb)`.  The data-space spans are
floored to 1 (`max(config.end - config.begin, 1)` and
`max(config.y_high - config.y_low, 1)`); the full transform is the
coordinate transform composed with the vertical flip
`fromTranslate(0, H).rotate(180, XAxis)`, and `ui_transform` is
`transform.inverted()[0]`. -/
def _prepare_drawing_cache (begin_ end_ : ℤ) (y_low y_high : ℚ)
    (W H pl pt pr pb : ℚ) : DrawingCache :=
  let drawer_area : Rect :=
    ⟨(begin_ : ℚ), y_low, ((max (end_ - begin_) 1 : ℤ) : ℚ), max (y_high - y_low) 1⟩
  let pa := plot_area W H pl pt pr pb
  let transform := (_coordinate_transform drawer_area pa).comp (flip180X H)
  ⟨transform, transform.inverted, drawer_area, pa⟩

/-- Python's `min(...)` over a nonempty list of y_low keys (the `[]` case
is unreachable in context: Python raises there). -/
def minList : List ℚ → ℚ
  | [] => 0
  | x :: xs => xs.foldl min x

/-- Python's `max(...)` over a nonempty list of y_high keys (the `[]`
case is unreachable in context: Python raises there). -/
def maxList : List ℚ → ℚ
  | [] => 0
  | x :: xs => xs.foldl max x

/-- The `has_showing_data` value stored by
`BarChartWidget._prepare_painting`: the signed integer
`config.end - config.begin` (used for Python truthiness tests). -/
def has_showing_data (begin_ end_ : ℤ) : ℤ := end_ - begin_

/-- The range-fitting part of `BarChartWidget._prepare_painting`:
`preferred` is the list of `(y_low, y_high)` pairs returned by the
registered drawers' `prepare_draw` (one per drawer; empty iff
`self._drawers` is empty).  The committed `(y_low, y_high)` is rescaled
through `scale_from_mid` only when `end - begin` is truthy (nonzero) and
there is at least one drawer; otherwise the previous values are kept. -/
def _prepare_painting_range (begin_ end_ : ℤ) (y_low y_high y_scale : ℚ)
    (preferred : List (ℚ × ℚ)) : ℚ × ℚ :=
  if has_showing_data begin_ end_ ≠ 0 ∧ preferred ≠ [] then
    scale_from_mid (minList (preferred.map Prod.fst))
      (maxList (preferred.map Prod.snd)) y_scale
  else (y_low, y_high)

/-- `BarChartWidget._paint_drawers`: returns the drawers whose `draw`
method is invoked during a paint — all of them when
`config.has_showing_data` is truthy (nonzero), none otherwise. -/
def _paint_drawers {α : Type} (hasShowing : ℤ) (drawers : List α) : List α :=
  if hasShowing ≠ 0 then drawers else []

/-- `BarChartWidget.add_drawer(drawer)`: unconditionally appends to
`self._drawers`. -/
def add_drawer {α : Type} (drawers : List α) (d : α) : List α := drawers ++ [d]

/-! ## Theorems for C1 -/

/-- C1: for a frame with a non-empty visible window and at least one
registered series, the committed range preserves the midpoint of
`(low, high) = (min y_low, max y_high)` and has span `(high - low) * y_scale`;
in particular `scale_from_mid 90 130 1.1` has midpoint `110` and span `44`. -/
theorem c1_viewport_centering (begin_ end_ : ℤ) (y_low y_high y_scale : ℚ)
    (preferred : List (ℚ × ℚ)) (hwin : begin_ < end_) (hdrawers : preferred ≠ []) :
    ((_prepare_painting_range begin_ end_ y_low y_high y_scale preferred).1 +
        (_prepare_painting_range begin_ end_ y_low y_high y_scale preferred).2) / 2 =
      (minList (preferred.map Prod.fst) + maxList (preferred.map Prod.snd)) / 2 ∧
    (_prepare_painting_range begin_ end_ y_low y_high y_scale preferred).2 -
        (_prepare_painting_range begin_ end_ y_low y_high y_scale preferred).1 =
      (maxList (preferred.map Prod.snd) - minList (preferred.map Prod.fst)) * y_scale ∧
    ((scale_from_mid 90 130 (11/10)).1 + (scale_from_mid 90 130 (11/10)).2) / 2 = 110 ∧
    (scale_from_mid 90 130 (11/10)).2 - (scale_from_mid 90 130 (11/10)).1 = 44 := by
  have hne : has_showing_data begin_ end_ ≠ 0 := by
    simp only [has_showing_data]
    omega
  rw [_prepare_painting_range, if_pos ⟨hne, hdrawers⟩]
  refine ⟨by simp only [scale_from_mid]; ring, by simp only [scale_from_mid]; ring,
    by norm_num [scale_from_mid], by norm_num [scale_from_mid]⟩

/-- Helper: when the determinant is nonzero, Qt's inverse undoes the map. -/
theorem Affine.inverted_map_map (t : Affine) (h : t.m11 * t.m22 ≠ 0) (p : ℚ × ℚ) :
    t.inverted.map (t.map p) = p := by
  have h1 : t.m11 ≠ 0 := left_ne_zero_of_mul h
  have h2 : t.m22 ≠ 0 := right_ne_zero_of_mul h
  simp only [Affine.inverted, if_pos h, Affine.map, Prod.ext_iff]
  constructor <;> (field_simp; try ring)

/-- C2: the stored `ui_transform` is the exact matrix inverse of the stored
`drawer_transform`: whenever the forward transform is invertible (nonzero
determinant `m11 * m22`), mapping any data point forward and then through
the stored inverse returns the point exactly. -/
theorem c2_transform_roundtrip (begin_ end_ : ℤ) (y_low y_high W H pl pt pr pb : ℚ)
    (hinv : (_prepare_drawing_cache begin_ end_ y_low y_high W H pl pt pr pb).drawer_transform.m11 *
        (_prepare_drawing_cache begin_ end_ y_low y_high W H pl pt pr pb).drawer_transform.m22 ≠ 0)
    (p : ℚ × ℚ) :
    (_prepare_drawing_cache begin_ end_ y_low y_high W H pl pt pr pb).ui_transform.map
      ((_prepare_drawing_cache begin_ end_ y_low y_high W H pl pt pr pb).drawer_transform.map p) = p := by
  exact Affine.inverted_map_map _ hinv p

/-- Witness for C2 at a concrete frame and point. -/
theorem c2_transform_roundtrip_witness :
    (_prepare_drawing_cache 0 10 0 1 800 600 80 80 80 80).drawer_transform.m11 *
        (_prepare_drawing_cache 0 10 0 1 800 600 80 80 80 80).drawer_transform.m22 ≠ 0 ∧
    (_prepare_drawing_cache 0 10 0 1 800 600 80 80 80 80).ui_transform.map
      ((_prepare_drawing_cache 0 10 0 1 800 600 80 80 80 80).drawer_transform.map (3, 1/2)) =
      (3, 1/2) := by
  have hinv : (_prepare_drawing_cache 0 10 0 1 800 600 80 80 80 80).drawer_transform.m11 *
      (_prepare_drawing_cache 0 10 0 1 800 600 80 80 80 80).drawer_transform.m22 ≠ 0 := by
    norm_num [_prepare_drawing_cache, _coordinate_transform, plot_area, flip180X,
      Affine.comp, Affine.fromTranslate, Affine.fromScale]
  exact ⟨hinv, c2_transform_roundtrip 0 10 0 1 800 600 80 80 80 80 hinv (3, 1/2)⟩

/-- C3: when the plot area has positive height, the forward data-to-device
transform is strictly decreasing in the data y coordinate: for the same x,
a larger data y maps to a strictly smaller device y. -/
theorem c3_vertical_flip (begin_ end_ : ℤ) (y_low y_high W H pl pt pr pb : ℚ)
    (hplot : 0 < (_prepare_drawing_cache begin_ end_ y_low y_high W H pl pt pr pb).plot_area.height)
    (x y1 y2 : ℚ) (hy : y1 < y2) :
    ((_prepare_drawing_cache begin_ end_ y_low y_high W H pl pt pr pb).drawer_transform.map (x, y2)).2 <
      ((_prepare_drawing_cache begin_ end_ y_low y_high W H pl pt pr pb).drawer_transform.map (x, y1)).2 := by
  have hd : (0 : ℚ) < max (y_high - y_low) 1 := lt_of_lt_of_le one_pos (le_max_right _ _)
  simp only [_prepare_drawing_cache, _coordinate_transform, plot_area, flip180X,
    Affine.comp, Affine.fromTranslate, Affine.fromScale, Affine.map] at hplot ⊢
  have hry : 0 < ((H - pb) - pt) / max (y_high - y_low) 1 := div_pos hplot hd
  have := mul_pos hry (sub_pos.mpr hy)
  nlinarith [this]

/-- Witness for C3 at a concrete frame and pair of points. -/
theorem c3_vertical_flip_witness :
    0 < (_prepare_drawing_cache 0 10 0 1 800 600 80 80 80 80).plot_area.height ∧
    ((_prepare_drawing_cache 0 10 0 1 800 600 80 80 80 80).drawer_transform.map (3, 1)).2 <
      ((_prepare_drawing_cache 0 10 0 1 800 600 80 80 80 80).drawer_transform.map (3, 0)).2 := by
  have hplot : 0 < (_prepare_drawing_cache 0 10 0 1 800 600 80 80 80 80).plot_area.height := by
    norm_num [_prepare_drawing_cache, plot_area]
  exact ⟨hplot, c3_vertical_flip 0 10 0 1 800 600 80 80 80 80 hplot 3 0 1 (by norm_num)⟩

/-- C5 is refuted: with widget width `160` and paddings `80` on each side
the device-space plot rect has width `0`; it is not floored to `1`, the
resulting x scale is `0` (a degenerate/singular transform), and Qt's
`inverted()` falls back to the identity transform. -/
theorem c5_counterexample :
    (_prepare_drawing_cache 0 10 0 1 160 600 80 80 80 80).plot_area.width = 0 ∧
    (_prepare_drawing_cache 0 10 0 1 160 600 80 80 80 80).drawer_transform.m11 = 0 ∧
    (_prepare_drawing_cache 0 10 0 1 160 600 80 80 80 80).ui_transform = ⟨1, 1, 0, 0⟩ := by
  norm_num [_prepare_drawing_cache, _coordinate_transform, plot_area, flip180X,
    Affine.comp, Affine.fromTranslate, Affine.fromScale, Affine.inverted]

/-- C5 (amended): only the data-space spans are floored to `1` before the
transform is built; since those are the only divisors, the construction
never divides by zero (the x and y scales equal the device span divided by
the floored data span).  Device-space spans are used as-is, so a zero plot
width or height yields a zero scale rather than being floored. -/
theorem c5_data_span_floor (begin_ end_ : ℤ) (y_low y_high W H pl pt pr pb : ℚ) :
    1 ≤ (_prepare_drawing_cache begin_ end_ y_low y_high W H pl pt pr pb).drawer_area.width ∧
    1 ≤ (_prepare_drawing_cache begin_ end_ y_low y_high W H pl pt pr pb).drawer_area.height ∧
    (_prepare_drawing_cache begin_ end_ y_low y_high W H pl pt pr pb).drawer_transform.m11 =
      (_prepare_drawing_cache begin_ end_ y_low y_high W H pl pt pr pb).plot_area.width /
        (_prepare_drawing_cache begin_ end_ y_low y_high W H pl pt pr pb).drawer_area.width ∧
    (_prepare_drawing_cache begin_ end_ y_low y_high W H pl pt pr pb).drawer_transform.m22 =
      -((_prepare_drawing_cache begin_ end_ y_low y_high W H pl pt pr pb).plot_area.height /
        (_prepare_drawing_cache begin_ end_ y_low y_high W H pl pt pr pb).drawer_area.height) := by
  refine ⟨?_, le_max_right _ _, ?_, ?_⟩
  · simp only [_prepare_drawing_cache]
    exact_mod_cast le_max_right (end_ - begin_) 1
  · simp only [_prepare_drawing_cache, _coordinate_transform, plot_area, flip180X,
      Affine.comp, Affine.fromTranslate, Affine.fromScale]
    ring
  · simp only [_prepare_drawing_cache, _coordinate_transform, plot_area, flip180X,
      Affine.comp, Affine.fromTranslate, Affine.fromScale]
    ring

/-- C4 is refuted for an inverted window: with `begin = 5, end = 3` the
value `end - begin = -2` is truthy, so range-fitting runs (rescaling the
retained `(0, 1)` range around its midpoint via `scale_from_mid`) and the
drawers are still painted.  The single preferred pair `(0, 1)` is what
`CandleDrawer.prepare_draw` returns for an inverted window: the slice
`data[5:3]` is empty, so the incoming `(y_low, y_high)` is returned
unchanged. -/
theorem c4_counterexample :
    _prepare_painting_range 5 3 0 1 (11/10) [(0, 1)] ≠ (0, 1) ∧
    _paint_drawers (has_showing_data 5 3) [()] ≠ ([] : List Unit) := by
  constructor
  · intro h
    have h1 := congrArg Prod.fst h
    norm_num [_prepare_painting_range, has_showing_data, scale_from_mid,
      minList, maxList] at h1
  · norm_num [_paint_drawers, has_showing_data]

/-- C4 (amended): the skip happens exactly for an empty window
`end == begin` (where `end - begin` is the only falsy value): there the
committed `y_low`/`y_high` retain their previous values and no drawer's
`draw` is invoked.  For an inverted window (`end < begin`) the nonzero
difference counts as "has showing data" and nothing is skipped. -/
theorem c4_empty_window_skip {α : Type} (begin_ end_ : ℤ) (y_low y_high y_scale : ℚ)
    (preferred : List (ℚ × ℚ)) (drawers : List α) (h : end_ = begin_) :
    _prepare_painting_range begin_ end_ y_low y_high y_scale preferred = (y_low, y_high) ∧
    _paint_drawers (has_showing_data begin_ end_) drawers = [] := by
  subst h
  simp [_prepare_painting_range, _paint_drawers, has_showing_data]

/-- Witness for the amended C4 at a concrete empty window. -/
theorem c4_empty_window_skip_witness :
    _prepare_painting_range 3 3 0 1 (11/10) [(2, 5)] = (0, 1) ∧
    _paint_drawers (has_showing_data 3 3) [()] = [] :=
  c4_empty_window_skip 3 3 0 1 (11/10) [(2, 5)] [()] rfl

/-- C10 is refuted: `add_drawer` appends unconditionally, so adding an
already-registered drawer (here `0`, already in `[0]`) changes the list. -/
theorem c10_counterexample : add_drawer [0] (0 : ℕ) ≠ [0] := by decide

/-- C10 (amended): `add_drawer` is not idempotent — it always appends, so
the registered list always changes and re-adding a registered drawer
increases its registration count by one (duplicate registration). -/
theorem c10_add_drawer_appends {α : Type} [DecidableEq α] (drawers : List α) (d : α) :
    add_drawer drawers d ≠ drawers ∧
    (add_drawer drawers d).count d = drawers.count d + 1 := by
  constructor
  · intro h
    have hlen := congrArg List.length h
    simp [add_drawer] at hlen
  · simp [add_drawer]

/-- Witness for C1 at a concrete frame. -/
theorem c1_viewport_centering_witness :
    ((_prepare_painting_range 0 2 0 1 (11/10) [(90, 130)]).1 +
        (_prepare_painting_range 0 2 0 1 (11/10) [(90, 130)]).2) / 2 =
      (minList ([(90, 130)].map Prod.fst) + maxList ([(90, 130)].map Prod.snd)) / 2 ∧
    (_prepare_painting_range 0 2 0 1 (11/10) [(90, 130)]).2 -
        (_prepare_painting_range 0 2 0 1 (11/10) [(90, 130)]).1 =
      (maxList ([(90, 130)].map Prod.snd) - minList ([(90, 130)].map Prod.fst)) * (11/10) ∧
    ((scale_from_mid 90 130 (11/10)).1 + (scale_from_mid 90 130 (11/10)).2) / 2 = 110 ∧
    (scale_from_mid 90 130 (11/10)).2 - (scale_from_mid 90 130 (11/10)).1 = 44 :=
  c1_viewport_centering 0 2 0 1 (11/10) [(90, 130)] (by decide) (by decide)

/-! ## Drawer.py — CandleDrawer and its geometry cache -/

/-- A record of `DataSource.CandleData` (the `datetime` field plays no
role in geometry generation and is omitted).  `open` is a Lean keyword,
so that field is named `open_`. -/
structure CandleData where
  open_ : ℚ
  low : ℚ
  high : ℚ
  close : ℚ
  deriving DecidableEq

/-- The mutable cache fields of `CandleDrawer`:
`_cache_raising`, `_cache_falling`, `_cache_end`. -/
structure CandleCacheState where
  cacheRaising : List (Option Rect)
  cacheFalling : List (Option Rect)
  cacheEnd : ℕ
  deriving DecidableEq

/-- `CandleDrawer.get_rect(i, start_y, end_y, width)` with the drawer's
`minimum_box_height`: left edge `i + 0.5 - 0.5 * width`, top
`min(start_y, end_y)`, height `max(abs(start_y - end_y), minimum_box_height)`. -/
def get_rect (minimum_box_height : ℚ) (i : ℕ) (start_y end_y width : ℚ) : Rect :=
  ⟨(i : ℚ) + 1/2 - 1/2 * width, min start_y end_y, width,
    max |start_y - end_y| minimum_box_height⟩

/-- `CandleDrawer.clear_cache()`. -/
def clear_cache (_s : CandleCacheState) : CandleCacheState := ⟨[], [], 0⟩

/-- `CandleDrawer.on_data_source_data_removed(begin, end)`: ignores the
removed range and clears the whole cache (the source carries a
"todo: fix cache, but not to rebuild it" comment). -/
def on_data_source_data_removed (_begin _end : ℕ) (s : CandleCacheState) : CandleCacheState :=
  clear_cache s

/-- One iteration of the loop in `CandleDrawer._generate_cache`: classify
the record (`open <= close` selects the raising bucket), then append the
body rectangle and the wick rectangle to the selected bucket and `None`
placeholders to the other. -/
def generateCacheItem (body_width line_width minimum_box_height : ℚ) (i : ℕ)
    (d : CandleData) (s : CandleCacheState) : CandleCacheState :=
  let box := get_rect minimum_box_height i d.open_ d.close body_width
  let line := get_rect minimum_box_height i d.low d.high line_width
  if d.open_ ≤ d.close then
    { s with cacheRaising := s.cacheRaising ++ [some box, some line],
             cacheFalling := s.cacheFalling ++ [none, none] }
  else
    { s with cacheFalling := s.cacheFalling ++ [some box, some line],
             cacheRaising := s.cacheRaising ++ [none, none] }

/-- The loop of `CandleDrawer._generate_cache` over a list of indices;
`none` models the `IndexError` Python would raise on an out-of-range
`self._data_source[i]`. -/
def genCacheLoop (ds : List CandleData) (body_width line_width minimum_box_height : ℚ) :
    List ℕ → CandleCacheState → Option CandleCacheState
  | [], s => some s
  | i :: rest, s =>
    match ds[i]? with
    | none => none
    | some d =>
      genCacheLoop ds body_width line_width minimum_box_height rest
        (generateCacheItem body_width line_width minimum_box_height i d s)

/-- `CandleDrawer._generate_cache(begin, end)`: run the loop over
`range(begin, end)` and then set `self._cache_end = end`. -/
def _generate_cache (ds : List CandleData) (body_width line_width minimum_box_height : ℚ)
    (begin_ end_ : ℕ) (s : CandleCacheState) : Option CandleCacheState :=
  (genCacheLoop ds body_width line_width minimum_box_height
      (List.range' begin_ (end_ - begin_)) s).map
    (fun s' => { s' with cacheEnd := end_ })

/-- The cache-extension step of `CandleDrawer.draw`:
`if len(self._data_source) > self._cache_end: self._generate_cache(self._cache_end, data_len)`. -/
def drawExtendCache (ds : List CandleData) (body_width line_width minimum_box_height : ℚ)
    (s : CandleCacheState) : Option CandleCacheState :=
  if ds.length > s.cacheEnd then
    _generate_cache ds body_width line_width minimum_box_height s.cacheEnd ds.length s
  else some s

/-- Exactly one of the two bucket slots holds a real shape. -/
def slotOne (a b : Option Rect) : Prop :=
  (a.isSome = true ∧ b = none) ∨ (a = none ∧ b.isSome = true)

instance (a b : Option Rect) : Decidable (slotOne a b) := by
  unfold slotOne
  infer_instance

/-- The bucket-alignment invariant of the candle cache (claim C7): both
buckets have length `2 * cache_end` and for every cached index
`i < cache_end` exactly one bucket holds a real shape at slot `2 i` and at
slot `2 i + 1`. -/
def bucketInv (s : CandleCacheState) : Prop :=
  s.cacheRaising.length = 2 * s.cacheEnd ∧
  s.cacheFalling.length = 2 * s.cacheEnd ∧
  ∀ i < s.cacheEnd,
    slotOne (s.cacheRaising.getD (2 * i) none) (s.cacheFalling.getD (2 * i) none) ∧
    slotOne (s.cacheRaising.getD (2 * i + 1) none) (s.cacheFalling.getD (2 * i + 1) none)

/-- Loop-level invariant: equal bucket lengths and exactly one real shape
per slot (independent of `cache_end`, which the loop does not touch). -/
def slotsInv (r f : List (Option Rect)) : Prop :=
  r.length = f.length ∧ ∀ k < r.length, slotOne (r.getD k none) (f.getD k none)

/-- Helper: appending one shape pair (real shapes into one bucket,
placeholders into the other) preserves the loop invariant. -/
theorem slotsInv_append2 (r f : List (Option Rect)) (h : slotsInv r f)
    (x1 x2 y1 y2 : Option Rect) (h1 : slotOne x1 y1) (h2 : slotOne x2 y2) :
    slotsInv (r ++ [x1, x2]) (f ++ [y1, y2]) := by
  obtain ⟨hlen, hall⟩ := h
  constructor
  · simp [hlen]
  · intro k hk
    simp only [List.length_append, List.length_cons, List.length_nil] at hk
    by_cases hkr : k < r.length
    · rw [List.getD_append _ _ _ _ hkr, List.getD_append _ _ _ _ (hlen ▸ hkr)]
      exact hall k hkr
    · have hk1 : r.length ≤ k := le_of_not_lt hkr
      have hk2 : f.length ≤ k := hlen ▸ hk1
      rw [List.getD_append_right _ _ _ _ hk1, List.getD_append_right _ _ _ _ hk2]
      have hff : k - f.length = k - r.length := by omega
      have hcase : k - r.length = 0 ∨ k - r.length = 1 := by omega
      rcases hcase with h0 | h0 <;> simp [hff, h0, h1, h2]

/-- Helper: one `_generate_cache` loop iteration preserves the loop
invariant and appends exactly two slots to each bucket. -/
theorem generateCacheItem_inv (bw lw mb : ℚ) (i : ℕ) (d : CandleData)
    (s : CandleCacheState) (h : slotsInv s.cacheRaising s.cacheFalling) :
    slotsInv (generateCacheItem bw lw mb i d s).cacheRaising
      (generateCacheItem bw lw mb i d s).cacheFalling ∧
    (generateCacheItem bw lw mb i d s).cacheRaising.length = s.cacheRaising.length + 2 ∧
    (generateCacheItem bw lw mb i d s).cacheFalling.length = s.cacheFalling.length + 2 ∧
    (generateCacheItem bw lw mb i d s).cacheEnd = s.cacheEnd := by
  unfold generateCacheItem
  by_cases hc : d.open_ ≤ d.close <;> simp only [hc, if_true, if_false, ite_true, ite_false]
  · exact ⟨slotsInv_append2 _ _ h _ _ _ _ (by simp [slotOne]) (by simp [slotOne]),
      by simp, by simp, by trivial⟩
  · exact ⟨slotsInv_append2 _ _ h _ _ _ _ (by simp [slotOne]) (by simp [slotOne]),
      by simp, by simp, by trivial⟩

/-- Helper: the whole `_generate_cache` loop preserves the loop invariant,
grows each bucket by two slots per processed index, and leaves
`cache_end` alone. -/
theorem genCacheLoop_inv (ds : List CandleData) (bw lw mb : ℚ) :
    ∀ (idxs : List ℕ) (s s' : CandleCacheState),
      slotsInv s.cacheRaising s.cacheFalling →
      genCacheLoop ds bw lw mb idxs s = some s' →
      slotsInv s'.cacheRaising s'.cacheFalling ∧
      s'.cacheRaising.length = s.cacheRaising.length + 2 * idxs.length ∧
      s'.cacheFalling.length = s.cacheFalling.length + 2 * idxs.length ∧
      s'.cacheEnd = s.cacheEnd := by
  intro idxs
  induction idxs with
  | nil =>
    intro s s' h heq
    simp only [genCacheLoop, Option.some.injEq] at heq
    subst heq
    simp [h]
  | cons i rest ih =>
    intro s s' h heq
    simp only [genCacheLoop] at heq
    cases hd : ds[i]? with
    | none => rw [hd] at heq; exact absurd heq (by simp)
    | some d =>
      rw [hd] at heq
      obtain ⟨hinv, hr, hf, he⟩ :=
        generateCacheItem_inv bw lw mb i d s h
      obtain ⟨hinv', hr', hf', he'⟩ := ih _ s' hinv heq
      refine ⟨hinv', ?_, ?_, ?_⟩
      · rw [hr', hr]; simp [List.length_cons]; ring
      · rw [hf', hf]; simp [List.length_cons]; ring
      · rw [he', he]

/-- Helper: the per-index bucket invariant implies the per-slot one. -/
theorem slotsInv_of_bucketInv (s : CandleCacheState) (h : bucketInv s) :
    slotsInv s.cacheRaising s.cacheFalling := by
  obtain ⟨h1, h2, h3⟩ := h
  refine ⟨h1.trans h2.symm, ?_⟩
  intro k hk
  rw [h1] at hk
  have hi : k / 2 < s.cacheEnd := by omega
  have hcase : k = 2 * (k / 2) ∨ k = 2 * (k / 2) + 1 := by omega
  rcases hcase with hc | hc
  · rw [hc]; exact (h3 _ hi).1
  · rw [hc]; exact (h3 _ hi).2

/-- Helper: the per-slot invariant with the right lengths gives the
per-index bucket invariant. -/
theorem bucketInv_mk (r f : List (Option Rect)) (e : ℕ) (h : slotsInv r f)
    (hr : r.length = 2 * e) : bucketInv ⟨r, f, e⟩ := by
  obtain ⟨hlen, hall⟩ := h
  unfold bucketInv
  dsimp only
  refine ⟨hr, by omega, ?_⟩
  intro i hi
  exact ⟨hall _ (by omega), hall _ (by omega)⟩

/-- C7: after every cache operation — a full clear, or the cache extension
performed during `draw` — the two classification buckets have equal length
`2 * cache_end`, and for every cached index `i < cache_end` exactly one
bucket holds a non-placeholder rectangle at slot `2 i` and at slot
`2 i + 1`, never both and never neither. -/
theorem c7_bucket_alignment :
    (∀ s : CandleCacheState, bucketInv (clear_cache s)) ∧
    (∀ (ds : List CandleData) (bw lw mb : ℚ) (s s' : CandleCacheState),
      bucketInv s → drawExtendCache ds bw lw mb s = some s' → bucketInv s') := by
  constructor
  · intro s
    refine ⟨rfl, rfl, ?_⟩
    intro i hi
    simp [clear_cache] at hi
  · intro ds bw lw mb s s' h heq
    unfold drawExtendCache at heq
    by_cases hlen : ds.length > s.cacheEnd
    · rw [if_pos hlen] at heq
      unfold _generate_cache at heq
      cases hloop : genCacheLoop ds bw lw mb (List.range' s.cacheEnd (ds.length - s.cacheEnd)) s with
      | none => rw [hloop] at heq; exact absurd heq (by simp)
      | some s0 =>
        rw [hloop] at heq
        simp only [Option.map_some', Option.some.injEq] at heq
        obtain ⟨hinv0, hr0, hf0, _⟩ :=
          genCacheLoop_inv ds bw lw mb _ s s0 (slotsInv_of_bucketInv s h) hloop
        subst heq
        have hrlen : s0.cacheRaising.length = 2 * ds.length := by
          rw [hr0, h.1, List.length_range']
          omega
        exact bucketInv_mk s0.cacheRaising s0.cacheFalling ds.length hinv0 hrlen
    · rw [if_neg hlen, Option.some.injEq] at heq
      exact heq ▸ h

/-- Witness for C7: both conjuncts applied at concrete states (an empty
cache cleared, and a one-candle extension of a fresh cache). -/
theorem c7_bucket_alignment_witness :
    bucketInv (clear_cache ⟨[some ⟨0, 0, 1, 1⟩], [none], 7⟩) ∧
    bucketInv ⟨[some ⟨0, 10, 1, 2⟩, some ⟨0, 9, 1, 4⟩], [none, none], 1⟩ := by
  refine ⟨c7_bucket_alignment.1 _, ?_⟩
  refine c7_bucket_alignment.2 [⟨10, 9, 13, 12⟩] 1 1 1 ⟨[], [], 0⟩ _ ?_ ?_
  · exact ⟨rfl, rfl, fun i hi => by simp at hi⟩
  · norm_num [drawExtendCache, _generate_cache, genCacheLoop, generateCacheItem,
      get_rect, List.range']

/-- C8: any data-removal notification, whatever range `(begin, end)` it
covers (a full `DataSource.clear()` emits `(0, len)`), resets the cache
unconditionally — `cache_end` becomes `0` and both buckets become empty —
and the next draw's cache extension therefore recomputes every index of
the data source from scratch (`_generate_cache(0, len(data))` from the
empty cache). -/
theorem c8_full_invalidation (b e : ℕ) (s : CandleCacheState) (ds : List CandleData)
    (bw lw mb : ℚ) (hds : 0 < ds.length) :
    on_data_source_data_removed b e s = ⟨[], [], 0⟩ ∧
    drawExtendCache ds bw lw mb (on_data_source_data_removed b e s) =
      _generate_cache ds bw lw mb 0 ds.length ⟨[], [], 0⟩ := by
  refine ⟨rfl, ?_⟩
  simp only [on_data_source_data_removed, clear_cache, drawExtendCache]
  rw [if_pos hds]

/-- Witness for C8 at a concrete removal notification and data source. -/
theorem c8_full_invalidation_witness :
    on_data_source_data_removed 2 5 ⟨[some ⟨0, 0, 1, 1⟩, none], [none, some ⟨0, 0, 1, 1⟩], 1⟩ =
      (⟨[], [], 0⟩ : CandleCacheState) ∧
    drawExtendCache [⟨10, 9, 13, 12⟩] 1 1 1
        (on_data_source_data_removed 2 5 ⟨[some ⟨0, 0, 1, 1⟩, none], [none, some ⟨0, 0, 1, 1⟩], 1⟩) =
      _generate_cache [⟨10, 9, 13, 12⟩] 1 1 1 0 1 ⟨[], [], 0⟩ :=
  c8_full_invalidation 2 5 _ [⟨10, 9, 13, 12⟩] 1 1 1 (by norm_num)

/-- Helper: indexing around an appended two-element block. -/
theorem getD_append_pair (l tail : List (Option Rect)) (x1 x2 : Option Rect) :
    (l ++ [x1, x2] ++ tail).getD l.length none = x1 ∧
    (l ++ [x1, x2] ++ tail).getD (l.length + 1) none = x2 := by
  constructor
  · rw [List.append_assoc, List.getD_append_right _ _ _ _ (le_refl _)]
    simp
  · rw [List.append_assoc, List.getD_append_right _ _ _ _ (by omega)]
    simp

/-- Helper: the `_generate_cache` loop only ever appends to the buckets. -/
theorem genCacheLoop_extends (ds : List CandleData) (bw lw mb : ℚ) :
    ∀ (idxs : List ℕ) (s s' : CandleCacheState),
      genCacheLoop ds bw lw mb idxs s = some s' →
      ∃ tr tf, s'.cacheRaising = s.cacheRaising ++ tr ∧
        s'.cacheFalling = s.cacheFalling ++ tf := by
  intro idxs
  induction idxs with
  | nil =>
    intro s s' heq
    simp only [genCacheLoop, Option.some.injEq] at heq
    exact ⟨[], [], by simp [heq], by simp [heq]⟩
  | cons i rest ih =>
    intro s s' heq
    simp only [genCacheLoop] at heq
    cases hd : ds[i]? with
    | none => rw [hd] at heq; exact absurd heq (by simp)
    | some d =>
      rw [hd] at heq
      obtain ⟨tr, tf, hr, hf⟩ := ih _ s' heq
      unfold generateCacheItem at hr hf
      by_cases hc : d.open_ ≤ d.close
      · simp only [hc, ite_true] at hr hf
        refine ⟨[some (get_rect mb i d.open_ d.close bw),
            some (get_rect mb i d.low d.high lw)] ++ tr, [none, none] ++ tf, ?_, ?_⟩
        · rw [hr, List.append_assoc]
        · rw [hf, List.append_assoc]
      · simp only [hc, ite_false] at hr hf
        refine ⟨[none, none] ++ tr, [some (get_rect mb i d.open_ d.close bw),
            some (get_rect mb i d.low d.high lw)] ++ tf, ?_, ?_⟩
        · rw [hr, List.append_assoc]
        · rw [hf, List.append_assoc]

/-- Helper: one loop iteration grows each bucket by exactly two slots. -/
theorem generateCacheItem_lengths (bw lw mb : ℚ) (i : ℕ) (d : CandleData)
    (s : CandleCacheState) :
    (generateCacheItem bw lw mb i d s).cacheRaising.length = s.cacheRaising.length + 2 ∧
    (generateCacheItem bw lw mb i d s).cacheFalling.length = s.cacheFalling.length + 2 := by
  unfold generateCacheItem
  by_cases hc : d.open_ ≤ d.close <;> simp [hc]

/-- Helper: positional content of the `_generate_cache` loop over
`range(b, b + k)`: the item at index `b + j` contributes its body
rectangle at relative slot `2 j` and its wick rectangle at relative slot
`2 j + 1`, in the bucket selected by `open <= close`, with a placeholder
in the other bucket. -/
theorem genCacheLoop_slots (ds : List CandleData) (bw lw mb : ℚ) :
    ∀ (k b : ℕ) (s s' : CandleCacheState),
      genCacheLoop ds bw lw mb (List.range' b k) s = some s' →
      ∀ j < k, ∃ d, ds[b + j]? = some d ∧
        s'.cacheRaising.getD (s.cacheRaising.length + 2 * j) none =
          (if d.open_ ≤ d.close then some (get_rect mb (b + j) d.open_ d.close bw) else none) ∧
        s'.cacheFalling.getD (s.cacheFalling.length + 2 * j) none =
          (if d.open_ ≤ d.close then none else some (get_rect mb (b + j) d.open_ d.close bw)) ∧
        s'.cacheRaising.getD (s.cacheRaising.length + 2 * j + 1) none =
          (if d.open_ ≤ d.close then some (get_rect mb (b + j) d.low d.high lw) else none) ∧
        s'.cacheFalling.getD (s.cacheFalling.length + 2 * j + 1) none =
          (if d.open_ ≤ d.close then none else some (get_rect mb (b + j) d.low d.high lw)) := by
  intro k
  induction k with
  | zero => intro b s s' _ j hj; omega
  | succ k ih =>
    intro b s s' heq j hj
    rw [List.range'_succ] at heq
    simp only [genCacheLoop] at heq
    cases hd : ds[b]? with
    | none => rw [hd] at heq; exact absurd heq (by simp)
    | some d0 =>
      rw [hd] at heq
      rcases Nat.eq_zero_or_pos j with hj0 | hjpos
      · subst hj0
        refine ⟨d0, by simpa using hd, ?_⟩
        obtain ⟨tr, tf, hr, hf⟩ := genCacheLoop_extends ds bw lw mb _ _ _ heq
        unfold generateCacheItem at hr hf
        simp only [Nat.mul_zero, Nat.add_zero] at *
        by_cases hc : d0.open_ ≤ d0.close
        · simp only [hc, ite_true] at hr hf ⊢
          exact ⟨by rw [hr]; exact (getD_append_pair _ tr _ _).1,
            by rw [hf]; exact (getD_append_pair _ tf _ _).1,
            by rw [hr]; exact (getD_append_pair _ tr _ _).2,
            by rw [hf]; exact (getD_append_pair _ tf _ _).2⟩
        · simp only [hc, ite_false] at hr hf ⊢
          exact ⟨by rw [hr]; exact (getD_append_pair _ tr _ _).1,
            by rw [hf]; exact (getD_append_pair _ tf _ _).1,
            by rw [hr]; exact (getD_append_pair _ tr _ _).2,
            by rw [hf]; exact (getD_append_pair _ tf _ _).2⟩
      · obtain ⟨j', rfl⟩ : ∃ j', j = j' + 1 := ⟨j - 1, by omega⟩
        obtain ⟨d, hd', h1, h2, h3, h4⟩ := ih (b + 1) _ s' heq j' (by omega)
        obtain ⟨hlr, hlf⟩ := generateCacheItem_lengths bw lw mb b d0 s
        rw [hlr] at h1 h3
        rw [hlf] at h2 h4
        rw [show b + 1 + j' = b + (j' + 1) from by omega] at hd' h1 h2 h3 h4
        rw [show s.cacheRaising.length + 2 + 2 * j' = s.cacheRaising.length + 2 * (j' + 1)
          from by omega] at h1
        rw [show s.cacheFalling.length + 2 + 2 * j' = s.cacheFalling.length + 2 * (j' + 1)
          from by omega] at h2
        rw [show s.cacheRaising.length + 2 + 2 * j' + 1 = s.cacheRaising.length + 2 * (j' + 1) + 1
          from by omega] at h3
        rw [show s.cacheFalling.length + 2 + 2 * j' + 1 = s.cacheFalling.length + 2 * (j' + 1) + 1
          from by omega] at h4
        exact ⟨d, hd', h1, h2, h3, h4⟩

/-- C6 (amended): for every candle record cached at index `i`, geometry
generation classifies it into the raising (growing) bucket exactly when
`close >= open` (the source tests `open <= close`), and otherwise into the
falling bucket; its body occupies slot `2 i` and is the rectangle from
`min(open, close)` of width `body_width` and height
`max(|open - close|, minimum_box_height)`, horizontally centered on
`i + 0.5` (the center of the unit-wide slot at index `i`, not on `i`
itself); its wick occupies slot `2 i + 1`, spans from `min(low, high)`
with height `max(|low - high|, minimum_box_height)` at the narrower
`line_width`, with the same centering. -/
theorem c6_candle_geometry (ds : List CandleData) (bw lw mb : ℚ) (s' : CandleCacheState)
    (heq : _generate_cache ds bw lw mb 0 ds.length ⟨[], [], 0⟩ = some s')
    (i : ℕ) (d : CandleData) (hd : ds[i]? = some d) :
    (s'.cacheRaising.getD (2 * i) none =
      if d.open_ ≤ d.close then some (get_rect mb i d.open_ d.close bw) else none) ∧
    (s'.cacheFalling.getD (2 * i) none =
      if d.open_ ≤ d.close then none else some (get_rect mb i d.open_ d.close bw)) ∧
    (s'.cacheRaising.getD (2 * i + 1) none =
      if d.open_ ≤ d.close then some (get_rect mb i d.low d.high lw) else none) ∧
    (s'.cacheFalling.getD (2 * i + 1) none =
      if d.open_ ≤ d.close then none else some (get_rect mb i d.low d.high lw)) ∧
    get_rect mb i d.open_ d.close bw =
      ⟨(i : ℚ) + 1/2 - 1/2 * bw, min d.open_ d.close, bw, max |d.open_ - d.close| mb⟩ ∧
    (get_rect mb i d.open_ d.close bw).left + bw / 2 = (i : ℚ) + 1/2 ∧
    get_rect mb i d.low d.high lw =
      ⟨(i : ℚ) + 1/2 - 1/2 * lw, min d.low d.high, lw, max |d.low - d.high| mb⟩ := by
  have hi : i < ds.length := by
    by_contra hlt
    rw [List.getElem?_eq_none (by omega)] at hd
    exact absurd hd (by simp)
  unfold _generate_cache at heq
  cases hloop : genCacheLoop ds bw lw mb (List.range' 0 (ds.length - 0)) ⟨[], [], 0⟩ with
  | none => rw [hloop] at heq; exact absurd heq (by simp)
  | some s0 =>
    rw [hloop] at heq
    simp only [Option.map_some', Option.some.injEq] at heq
    subst heq
    obtain ⟨d', hd', h1, h2, h3, h4⟩ :=
      genCacheLoop_slots ds bw lw mb (ds.length - 0) 0 ⟨[], [], 0⟩ s0 hloop i (by omega)
    rw [Nat.zero_add] at hd' h1 h2 h3 h4
    rw [hd] at hd'
    have hdd : d' = d := by injection hd' with h; exact h.symm
    subst hdd
    simp only [List.length_nil, Nat.zero_add] at h1 h2 h3 h4
    dsimp only at h1 h2 h3 h4 ⊢
    refine ⟨h1, h2, h3, h4, rfl, ?_, rfl⟩
    simp only [get_rect]
    ring

/-- C6 is refuted as stated: the body rectangle is not horizontally
centered on the index `i`.  For the candle at index `0` with the source's
default `body_width = 0.95` and `minimum_box_height = 0.01`, the body
rectangle's horizontal center (`left + width / 2`) is `1/2`, not `0`. -/
theorem c6_counterexample :
    (get_rect (1/100) 0 10 12 (95/100)).left + (95/100) / 2 = 1/2 ∧ (1/2 : ℚ) ≠ 0 := by
  norm_num [get_rect]

/-- Witness for the amended C6 on a one-candle data source. -/
theorem c6_candle_geometry_witness :
    ((⟨[some ⟨0, 10, 1, 2⟩, some ⟨0, 9, 1, 4⟩], [none, none], 1⟩ :
        CandleCacheState).cacheRaising.getD (2 * 0) none =
      if (10 : ℚ) ≤ 12 then some (get_rect 1 0 10 12 1) else none) ∧
    ((⟨[some ⟨0, 10, 1, 2⟩, some ⟨0, 9, 1, 4⟩], [none, none], 1⟩ :
        CandleCacheState).cacheFalling.getD (2 * 0) none =
      if (10 : ℚ) ≤ 12 then none else some (get_rect 1 0 10 12 1)) ∧
    ((⟨[some ⟨0, 10, 1, 2⟩, some ⟨0, 9, 1, 4⟩], [none, none], 1⟩ :
        CandleCacheState).cacheRaising.getD (2 * 0 + 1) none =
      if (10 : ℚ) ≤ 12 then some (get_rect 1 0 9 13 1) else none) ∧
    ((⟨[some ⟨0, 10, 1, 2⟩, some ⟨0, 9, 1, 4⟩], [none, none], 1⟩ :
        CandleCacheState).cacheFalling.getD (2 * 0 + 1) none =
      if (10 : ℚ) ≤ 12 then none else some (get_rect 1 0 9 13 1)) ∧
    get_rect 1 0 10 12 1 =
      ⟨((0 : ℕ) : ℚ) + 1/2 - 1/2 * 1, min 10 12, 1, max |(10 : ℚ) - 12| 1⟩ ∧
    (get_rect 1 0 10 12 1).left + 1 / 2 = ((0 : ℕ) : ℚ) + 1/2 ∧
    get_rect 1 0 9 13 1 =
      ⟨((0 : ℕ) : ℚ) + 1/2 - 1/2 * 1, min 9 13, 1, max |(9 : ℚ) - 13| 1⟩ :=
  c6_candle_geometry [⟨10, 9, 13, 12⟩] 1 1 1
    ⟨[some ⟨0, 10, 1, 2⟩, some ⟨0, 9, 1, 4⟩], [none, none], 1⟩
    (by norm_num [_generate_cache, genCacheLoop, generateCacheItem, get_rect, List.range'])
    0 ⟨10, 9, 13, 12⟩ rfl

/-! ## private/ValueAxisHelper.py -/

/-- `Base.Orientation` (named to avoid clashing with the library's
`Orientation`). -/
inductive AxisOrientation where
  | HORIZONTAL : AxisOrientation
  | VERTICAL : AxisOrientation
  deriving DecidableEq

/-- `_generate_sequence(begin, end, step)`: the Python generator
`while i < end: yield i; i += step`.  The guard `0 < step` makes the
definition total: with `step <= 0` and `begin < end` the Python loop never
terminates, a path unreachable from `prepare_draw` (its `step` is positive
whenever the axis range is nonempty); the embedding returns `[]` there. -/
def _generate_sequence (begin_ end_ step : ℚ) : List ℚ :=
  if h : 0 < step ∧ begin_ < end_ then
    begin_ :: _generate_sequence (begin_ + step) end_ step
  else []
termination_by (⌈(end_ - begin_) / step⌉).toNat
decreasing_by
  obtain ⟨hs, hb⟩ := h
  have hx : 0 < (end_ - begin_) / step := div_pos (by linarith) hs
  have h1 : (end_ - (begin_ + step)) / step = (end_ - begin_) / step - 1 := by
    field_simp
    ring
  have h2 : ⌈(end_ - begin_) / step - 1⌉ = ⌈(end_ - begin_) / step⌉ - 1 := by
    exact_mod_cast Int.ceil_sub_int ((end_ - begin_) / step) 1
  have h3 : 0 < ⌈(end_ - begin_) / step⌉ := Int.ceil_pos.mpr hx
  simp only [h1, h2]
  omega

/-- `ValueAxisHelper.prepare_draw(config)`, reduced to the tick values it
generates: a horizontal axis ranges over `(config.begin, config.end)`, a
vertical one over `(config.y_low, config.y_high)`; the step is
`(end - begin) / tick_count`, and a vertical axis advances `begin` by one
step before generating (skipping the lowest tick). -/
def ValueAxisHelper_prepare_draw (orientation : AxisOrientation)
    (config_begin config_end : ℤ) (y_low y_high : ℚ) (tick_count : ℕ) : List ℚ :=
  let be : ℚ × ℚ :=
    match orientation with
    | AxisOrientation.HORIZONTAL => ((config_begin : ℚ), (config_end : ℚ))
    | AxisOrientation.VERTICAL => (y_low, y_high)
  let step := (be.2 - be.1) / (tick_count : ℚ)
  let b :=
    match orientation with
    | AxisOrientation.HORIZONTAL => be.1
    | AxisOrientation.VERTICAL => be.1 + step
  _generate_sequence b be.2 step

/-- Helper: everything the generator emits is `begin + k * step` for some
natural `k`, and below `end`. -/
theorem generate_sequence_mem_mp :
    ∀ (begin_ end_ step v : ℚ), v ∈ _generate_sequence begin_ end_ step →
      ∃ k : ℕ, v = begin_ + k * step ∧ v < end_ := by
  intro begin_ end_ step
  induction begin_, end_, step using _generate_sequence.induct with
  | case1 b e s h ih =>
    intro v hv
    rw [_generate_sequence, dif_pos h] at hv
    rcases List.mem_cons.mp hv with hv0 | hvr
    · exact ⟨0, by simp [hv0], by rw [hv0]; exact h.2⟩
    · obtain ⟨k, hk, hke⟩ := ih v hvr
      exact ⟨k + 1, by rw [hk]; push_cast; ring, hke⟩
  | case2 b e s h =>
    intro v hv
    rw [_generate_sequence, dif_neg h] at hv
    exact absurd hv (by simp)

/-- Helper: conversely, every `begin + k * step` below `end` is emitted
(for a positive step). -/
theorem generate_sequence_mem_mpr (e s : ℚ) (hs : 0 < s) :
    ∀ (k : ℕ) (b v : ℚ), v = b + k * s → v < e → v ∈ _generate_sequence b e s := by
  intro k
  induction k with
  | zero =>
    intro b v hv hve
    have hb : b < e := by simpa [hv] using hve
    rw [_generate_sequence, dif_pos ⟨hs, hb⟩]
    simp [hv]
  | succ k ih =>
    intro b v hv hve
    have hbv : b < v := by
      rw [hv]
      have : (0 : ℚ) < (k + 1 : ℕ) * s := by
        apply mul_pos _ hs
        exact_mod_cast Nat.succ_pos k
      push_cast at this ⊢
      linarith
    rw [_generate_sequence, dif_pos ⟨hs, lt_trans hbv hve⟩]
    refine List.mem_cons.mpr (Or.inr (ih (b + s) v ?_ hve))
    rw [hv]
    push_cast
    ring

/-- C9: for a value axis with `tick_count = t` over a nonempty range
`[b, e)`, tick values are exactly the values `b + k * step` below `e`
(with `step = (e - b) / t`); a horizontal axis generates from `k = 0`
(including `b` itself), while a vertical axis advances the start by one
step first, so its ticks have `k >= 1` and its lowest tick at `b` is
always skipped. -/
theorem c9_value_ticks (config_begin config_end : ℤ) (y_low y_high : ℚ)
    (tick_count : ℕ) (ht : 0 < tick_count)
    (hh : config_begin < config_end) (hv : y_low < y_high) :
    (∀ v, v ∈ ValueAxisHelper_prepare_draw AxisOrientation.HORIZONTAL
        config_begin config_end y_low y_high tick_count ↔
      ∃ k : ℕ, v = (config_begin : ℚ) +
          k * (((config_end : ℚ) - (config_begin : ℚ)) / (tick_count : ℚ)) ∧
        v < (config_end : ℚ)) ∧
    ((config_begin : ℚ) ∈ ValueAxisHelper_prepare_draw AxisOrientation.HORIZONTAL
        config_begin config_end y_low y_high tick_count) ∧
    (∀ v, v ∈ ValueAxisHelper_prepare_draw AxisOrientation.VERTICAL
        config_begin config_end y_low y_high tick_count ↔
      ∃ k : ℕ, 1 ≤ k ∧ v = y_low + k * ((y_high - y_low) / (tick_count : ℚ)) ∧
        v < y_high) ∧
    y_low ∉ ValueAxisHelper_prepare_draw AxisOrientation.VERTICAL
        config_begin config_end y_low y_high tick_count := by
  have htq : (0 : ℚ) < (tick_count : ℚ) := by exact_mod_cast ht
  have hhq : (config_begin : ℚ) < (config_end : ℚ) := by exact_mod_cast hh
  have hsh : 0 < ((config_end : ℚ) - (config_begin : ℚ)) / (tick_count : ℚ) :=
    div_pos (by linarith) htq
  have hsv : 0 < (y_high - y_low) / (tick_count : ℚ) := div_pos (by linarith) htq
  have hmemv : ∀ v, v ∈ ValueAxisHelper_prepare_draw AxisOrientation.VERTICAL
      config_begin config_end y_low y_high tick_count ↔
      ∃ k : ℕ, 1 ≤ k ∧ v = y_low + k * ((y_high - y_low) / (tick_count : ℚ)) ∧
        v < y_high := by
    intro v
    unfold ValueAxisHelper_prepare_draw
    dsimp only
    constructor
    · intro hmem
      obtain ⟨k, hk, hke⟩ := generate_sequence_mem_mp _ _ _ v hmem
      refine ⟨k + 1, by omega, ?_, hke⟩
      rw [hk]
      push_cast
      ring
    · rintro ⟨k, hk1, hkv, hke⟩
      obtain ⟨k', rfl⟩ : ∃ k', k = k' + 1 := ⟨k - 1, by omega⟩
      refine generate_sequence_mem_mpr _ _ hsv k' _ v ?_ hke
      rw [hkv]
      push_cast
      ring
  refine ⟨?_, ?_, hmemv, ?_⟩
  · intro v
    unfold ValueAxisHelper_prepare_draw
    dsimp only
    constructor
    · intro hmem
      exact generate_sequence_mem_mp _ _ _ v hmem
    · rintro ⟨k, hkv, hke⟩
      exact generate_sequence_mem_mpr _ _ hsh k _ v hkv hke
  · unfold ValueAxisHelper_prepare_draw
    dsimp only
    exact generate_sequence_mem_mpr _ _ hsh 0 _ _ (by push_cast; ring) hhq
  · intro hmem
    obtain ⟨k, hk1, hkv, _⟩ := (hmemv y_low).mp hmem
    have hkpos : (0 : ℚ) < (k : ℚ) := by exact_mod_cast hk1
    have : (0 : ℚ) < (k : ℚ) * ((y_high - y_low) / (tick_count : ℚ)) :=
      mul_pos hkpos hsv
    linarith [hkv ▸ this]

/-- Witness for C9: with `tick_count = 2`, horizontal range `[0, 2)` and
vertical range `[0, 1)`, the horizontal ticks include the range start `0`
while the vertical ticks exclude the range start `0`. -/
theorem c9_value_ticks_witness :
    ((0 : ℚ) ∈ ValueAxisHelper_prepare_draw AxisOrientation.HORIZONTAL 0 2 0 1 2) ∧
    ((0 : ℚ) ∉ ValueAxisHelper_prepare_draw AxisOrientation.VERTICAL 0 2 0 1 2) := by
  have h := c9_value_ticks 0 2 0 1 2 (by norm_num) (by norm_num) (by norm_num)
  exact ⟨by simpa using h.2.1, by simpa using h.2.2.2⟩

/-- Witness for the amended C5 at a frame whose data spans are both
degenerate (empty window and zero value span). -/
theorem c5_data_span_floor_witness :
    1 ≤ (_prepare_drawing_cache 3 3 5 5 800 600 80 80 80 80).drawer_area.width ∧
    1 ≤ (_prepare_drawing_cache 3 3 5 5 800 600 80 80 80 80).drawer_area.height ∧
    (_prepare_drawing_cache 3 3 5 5 800 600 80 80 80 80).drawer_transform.m11 =
      (_prepare_drawing_cache 3 3 5 5 800 600 80 80 80 80).plot_area.width /
        (_prepare_drawing_cache 3 3 5 5 800 600 80 80 80 80).drawer_area.width ∧
    (_prepare_drawing_cache 3 3 5 5 800 600 80 80 80 80).drawer_transform.m22 =
      -((_prepare_drawing_cache 3 3 5 5 800 600 80 80 80 80).plot_area.height /
        (_prepare_drawing_cache 3 3 5 5 800 600 80 80 80 80).drawer_area.height) :=
  c5_data_span_floor 3 3 5 5 800 600 80 80 80 80

/-- Witness for the amended C10 at a list already containing the drawer. -/
theorem c10_add_drawer_appends_witness :
    add_drawer [0] (0 : ℕ) ≠ [0] ∧
    (add_drawer [0] (0 : ℕ)).count 0 = ([0] : List ℕ).count 0 + 1 :=
  c10_add_drawer_appends [0] 0
